import Mathlib

/-!
# Verification of the nofx assistant core

Shallow embedding of the `assistant` package of the nofx repository:
the session store (`session.go`), the agent loop (`agent.go`), the
trading-context synthesizer (`context builder`), and the background
monitor, together with proofs of the specification claims about them.

Modelling conventions:
* Go `float64` arithmetic is embedded as exact rational arithmetic (`ℚ`);
  the claims under study only involve finitely many algebraic operations
  on values where `float64` and `ℚ` agree on every cited example.
* Go `time.Time` values are embedded as natural-number instants
  (seconds); `time.Since(t)` at instant `now ≥ t` is `now - t`, and the
  5-minute window is `300` seconds.
* Go maps used as association stores are embedded as association lists
  with overwrite-on-insert; Go map iteration order is unspecified, the
  association-list order is one admissible order and no claim proved
  here depends on it.
* `fmt` numeric formatting (`%.1f`, `%.2f`, `%.4f`, `%d`) is abstracted
  by `toString` of the embedded value: formatting is deterministic, so
  two identical argument tuples yield identical message strings, which
  is the only property of formatting any claim uses.
* The external collaborators (AI completion client, trading manager,
  persistence store, wall clock, cancellable context) are embedded as
  explicit oracle parameters.
-/

namespace Nofx

/-- The suffix slice `lastN n l` keeps the `min l.length n` last elements of `l`, in order:
the list slice `l[len-n:]` that `Session.AddMessage` keeps on overflow. -/
def lastN (n : Nat) (l : List α) : List α :=
  l.drop (l.length - n)

@[simp] theorem lastN_length (n : Nat) (l : List α) :
    (lastN n l).length = min l.length n := by
  simp [lastN]
  omega

/-! ## Session store (`assistant/session.go`) -/

/-- Go `Message` from `session.go`: role, content, timestamp, and the
optional tool fields.  Timestamps are natural-number instants; the Go
`interface{}` tool result is embedded by its rendered form. -/
structure Message where
  role : String
  content : String
  timestamp : Nat
  toolName : String := ""
  toolResult : Option String := none
  deriving Repr, DecidableEq

/-- Go `Session` from `session.go`.  The `sync.RWMutex` is not part of the
functional state; the free-form metadata map is embedded as an
association list of rendered values. -/
structure Session where
  id : String
  createdAt : Nat
  updatedAt : Nat
  userID : String := ""
  userName : String := ""
  platform : String := ""
  messages : List Message
  maxMessages : Nat
  metadata : List (String × String) := []
  deriving Repr, DecidableEq

/-- Go `NewSession` from `session.go`. -/
def newSession (id : String) (maxMessages : Nat) (now : Nat) : Session :=
  { id := id
    createdAt := now
    updatedAt := now
    messages := []
    maxMessages := maxMessages }

/-- Go `Session.AddMessage` from `session.go`: append, stamp `UpdatedAt`,
then if the length exceeds `maxMessages` keep only the most recent
`maxMessages` entries (the slice `messages[len-max:]`). -/
def Session.addMessage (s : Session) (msg : Message) (now : Nat) : Session :=
  let msgs := s.messages ++ [msg]
  let msgs :=
    if msgs.length > s.maxMessages then msgs.drop (msgs.length - s.maxMessages)
    else msgs
  { s with messages := msgs, updatedAt := now }

/-- Go `Session.GetMessages` from `session.go`.  The Go code allocates a
fresh slice and copies `s.messages` into it, so the caller observes a
list equal to the backing sequence; in the pure embedding that copy is
the list itself. -/
def Session.getMessages (s : Session) : List Message :=
  s.messages

/-- Go `Session.Clear` from `session.go`. -/
def Session.clear (s : Session) (now : Nat) : Session :=
  { s with messages := [], updatedAt := now }

/-! ## Trading context synthesizer (`context.go`, `ContextBuilder`) -/

/-- Go `Alert` from the context builder: level (`info`/`warning`/`danger`),
type tag, message. -/
structure Alert where
  level : String
  type : String
  message : String
  deriving Repr, DecidableEq

/-- Go `PositionSummary` from the context builder.  Go `float64` fields are
embedded as `ℚ`, `Leverage int` as `Int`. -/
structure PositionSummary where
  symbol : String
  side : String
  size : ℚ
  entryPrice : ℚ
  markPrice : ℚ
  unrealizedPnL : ℚ
  pnlPercent : ℚ
  leverage : Int
  liquidationPrice : ℚ
  traderID : String
  traderName : String
  deriving Repr, DecidableEq

/-- Go `TraderSummary` from the context builder. -/
structure TraderSummary where
  id : String
  name : String
  exchange : String
  isRunning : Bool
  equity : ℚ
  positionCount : Nat
  deriving Repr, DecidableEq

/-- Go `TradingContext` from the context builder (the fields the claims
use; market-price maps are association lists). -/
structure TradingContext where
  totalEquity : ℚ := 0
  availableBalance : ℚ := 0
  unrealizedPnL : ℚ := 0
  positions : List PositionSummary := []
  marketPrices : List (String × ℚ) := []
  activeTraders : List TraderSummary := []
  alerts : List Alert := []
  updatedAt : Nat := 0
  deriving Repr, DecidableEq

/-- Raw position data as handed to `parsePosition`: the Go
`map[string]interface{}` with its comma-ok type assertions is embedded
as a record of optional fields (`none` = key absent or of the wrong
dynamic type, in which case the summary keeps its zero default). -/
structure RawPosition where
  symbol : Option String := none
  side : Option String := none
  size : Option ℚ := none
  entryPrice : Option ℚ := none
  markPrice : Option ℚ := none
  unrealizedPnL : Option ℚ := none
  leverage : Option Int := none
  liquidationPrice : Option ℚ := none
  deriving Repr, DecidableEq

/-- Go `strings.ToLower`, embedded character-wise (exact on the ASCII
side tags `"long"`/`"short"`/`"LONG"`… that the backend produces). -/
def toLowerStr (s : String) : String :=
  ⟨s.data.map Char.toLower⟩

/-- The field-copying phase of `ContextBuilder.parsePosition`: copy the
fields that are present (lower-casing the side), leave absent fields at
their zero defaults, with the P&L percent still at its zero default. -/
def parsePositionBase (pos : RawPosition) (traderID traderName : String) : PositionSummary :=
  { traderID := traderID
    traderName := traderName
    symbol := pos.symbol.getD ""
    side := (pos.side.map toLowerStr).getD ""
    size := pos.size.getD 0
    entryPrice := pos.entryPrice.getD 0
    markPrice := pos.markPrice.getD 0
    unrealizedPnL := pos.unrealizedPnL.getD 0
    pnlPercent := 0
    leverage := pos.leverage.getD 0
    liquidationPrice := pos.liquidationPrice.getD 0 }

/-- Go `ContextBuilder.parsePosition` from the context builder: after the
field copy, compute the P&L percent only when entry price and size are
both positive — `((mark−entry)/entry)·100·leverage` when the side
equals `"long"`, the mirrored formula otherwise. -/
def parsePosition (pos : RawPosition) (traderID traderName : String) : PositionSummary :=
  let base := parsePositionBase pos traderID traderName
  if base.entryPrice > 0 ∧ base.size > 0 then
    if base.side = "long" then
      { base with pnlPercent :=
          ((base.markPrice - base.entryPrice) / base.entryPrice) * 100 * (base.leverage : ℚ) }
    else
      { base with pnlPercent :=
          ((base.entryPrice - base.markPrice) / base.entryPrice) * 100 * (base.leverage : ℚ) }
  else base

/-- Message of the danger-level liquidation alert.  `%.1f` numeric
formatting is abstracted by `toString`. -/
def liqDangerMsg (symbol side : String) (d : ℚ) : String :=
  "⚠️ " ++ symbol ++ " " ++ side ++ "仓位距离强平仅 " ++ toString d ++ "%！"

/-- Message of the warning-level liquidation alert. -/
def liqWarnMsg (symbol side : String) (d : ℚ) : String :=
  "⚡ " ++ symbol ++ " " ++ side ++ "仓位距离强平 " ++ toString d ++ "%，注意风险"

/-- Message of the danger-level large-loss alert. -/
def lossDangerMsg (symbol side : String) (p : ℚ) : String :=
  "📉 " ++ symbol ++ " " ++ side ++ "仓位亏损 " ++ toString p ++ "%，考虑止损"

/-- Message of the warning-level large-loss alert. -/
def lossWarnMsg (symbol side : String) (p : ℚ) : String :=
  "📉 " ++ symbol ++ " " ++ side ++ "仓位亏损 " ++ toString p ++ "%"

/-- Message of the info-level large-profit alert. -/
def profitMsg (symbol side : String) (p : ℚ) : String :=
  "📈 " ++ symbol ++ " " ++ side ++ "仓位盈利 " ++ toString p ++ "%，考虑部分止盈"

/-- The liquidation distance (`distancePercent` local) of
`checkPositionAlerts`: `(mark−liquidation)/mark·100` when the side
equals `"long"`, the mirrored formula otherwise. -/
def liquidationDistance (pos : PositionSummary) : ℚ :=
  if pos.side = "long" then
    ((pos.markPrice - pos.liquidationPrice) / pos.markPrice) * 100
  else
    ((pos.liquidationPrice - pos.markPrice) / pos.markPrice) * 100

/-- The alerts `ContextBuilder.checkPositionAlerts` appends for one
position, in append order: the liquidation-risk alert (only when both
mark and liquidation price are positive; danger below 5%, warning below
10%), then the large-loss alert (danger below −20, warning below −10),
then the large-profit alert (info above 50). -/
def positionAlerts (pos : PositionSummary) : List Alert :=
  (if pos.liquidationPrice > 0 ∧ pos.markPrice > 0 then
    if liquidationDistance pos < 5 then
      [{ level := "danger", type := "liquidation_risk"
         message := liqDangerMsg pos.symbol pos.side (liquidationDistance pos) }]
    else if liquidationDistance pos < 10 then
      [{ level := "warning", type := "liquidation_risk"
         message := liqWarnMsg pos.symbol pos.side (liquidationDistance pos) }]
    else []
  else []) ++
  (if pos.pnlPercent < -20 then
    [{ level := "danger", type := "large_loss"
       message := lossDangerMsg pos.symbol pos.side pos.pnlPercent }]
  else if pos.pnlPercent < -10 then
    [{ level := "warning", type := "large_loss"
       message := lossWarnMsg pos.symbol pos.side pos.pnlPercent }]
  else []) ++
  (if pos.pnlPercent > 50 then
    [{ level := "info", type := "large_profit"
       message := profitMsg pos.symbol pos.side pos.pnlPercent }]
  else [])

/-- Go `ContextBuilder.checkPositionAlerts`: append the position's derived
alerts to the context's alert list. -/
def checkPositionAlerts (ctx : TradingContext) (pos : PositionSummary) : TradingContext :=
  { ctx with alerts := ctx.alerts ++ positionAlerts pos }

/-- The sample long position of the claim: entry 100, mark 110,
leverage 5, with a (positive) unit size so the P&L computation fires. -/
def rawLongSample : RawPosition :=
  { side := some "long", size := some 1, entryPrice := some 100
    markPrice := some 110, leverage := some 5 }

/-- The sample short position: identical inputs, side short. -/
def rawShortSample : RawPosition :=
  { side := some "short", size := some 1, entryPrice := some 100
    markPrice := some 110, leverage := some 5 }

/-! ## Monitor (`monitor.go`) -/

/-- Association-list overwrite, embedding Go map assignment `m[k] = v`.
As a key-value map it is extensionally the Go map after assignment; Go
map iteration order is unspecified and no claim proved here depends on
the entry order of this embedding. -/
def insertA (m : List (String × α)) (k : String) (v : α) : List (String × α) :=
  m.filter (fun p => !(p.1 == k)) ++ [(k, v)]

/-- The mutable state of `Monitor` that the change-detection and
deduplication logic reads and writes: the last seen position set keyed
by `trader_symbol_side`, and the last delivery instant per alert key. -/
structure MonitorState where
  lastPositions : List (String × PositionSummary) := []
  lastAlerts : List (String × Nat) := []
  deriving Repr, DecidableEq

/-- The position key of `checkPositionChanges`:
`fmt.Sprintf("%s_%s_%s", TraderID, Symbol, Side)`. -/
def posKey (pos : PositionSummary) : String :=
  pos.traderID ++ "_" ++ pos.symbol ++ "_" ++ pos.side

/-- The deduplication key of `sendAlertIfNew`:
`fmt.Sprintf("%s_%s", Type, Message)`. -/
def dedupKey (alert : Alert) : String :=
  alert.type ++ "_" ++ alert.message

/-- Message of a `new_position` alert (`%.4f`/`%.2f`/`%d` formatting
abstracted by `toString`). -/
def newPositionMsg (pos : PositionSummary) : String :=
  "📍 新开仓位: " ++ pos.symbol ++ " " ++ pos.side ++ " " ++ toString pos.size ++
    " @ " ++ toString pos.entryPrice ++ " (" ++ toString pos.leverage ++ "x)"

/-- Message of a `position_closed` alert. -/
def positionClosedMsg (pos : PositionSummary) : String :=
  "📍 仓位已平: " ++ pos.symbol ++ " " ++ pos.side ++ " (入场价: " ++
    toString pos.entryPrice ++ ")"

/-- Go `Monitor.sendAlert` delivers the alert to every registered callback
(fire-and-forget); observably the alert reaches the subscribers, so a
call contributes one delivered alert. -/
def sendAlert (alert : Alert) : List Alert :=
  [alert]

/-- Go `Monitor.sendAlertIfNew`: suppress the alert when the same
(type,message) key was delivered within the last 5 minutes (300
seconds), otherwise record the delivery instant and send it. -/
def sendAlertIfNew (st : MonitorState) (now : Nat) (alert : Alert) :
    MonitorState × List Alert :=
  let key := dedupKey alert
  let sentRecently : Bool :=
    match st.lastAlerts.lookup key with
    | some lastSent => now - lastSent < 300
    | none => false
  if sentRecently then (st, [])
  else
    ({ st with lastAlerts := insertA st.lastAlerts key now }, sendAlert alert)

/-- Go `Monitor.checkPositionChanges`: rebuild the current position map
from the snapshot, send (directly, via `sendAlert`) an info
`new_position` alert for every position whose key was absent last tick
and an info `position_closed` alert for every last-tick key now absent,
then replace the stored position set. -/
def checkPositionChanges (st : MonitorState) (ctx : TradingContext) :
    MonitorState × List Alert :=
  let r := ctx.positions.foldl
    (fun (acc : List (String × PositionSummary) × List Alert) pos =>
      let key := posKey pos
      let current := insertA acc.1 key pos
      if (st.lastPositions.lookup key).isSome then (current, acc.2)
      else (current,
        acc.2 ++ sendAlert ⟨"info", "new_position", newPositionMsg pos⟩))
    ([], [])
  let currentPositions := r.1
  let closed := st.lastPositions.foldl
    (fun (acc : List Alert) kv =>
      if (currentPositions.lookup kv.1).isSome then acc
      else acc ++ sendAlert ⟨"info", "position_closed", positionClosedMsg kv.2⟩)
    []
  ({ st with lastPositions := currentPositions }, r.2 ++ closed)

/-- Go `Monitor.checkAndAlert`, one tick: forward the snapshot's built-in
alerts through the deduplication filter, then run position-change
detection (`checkMarketMovements` is a no-op in the source). -/
def checkAndAlert (st : MonitorState) (ctx : TradingContext) (now : Nat) :
    MonitorState × List Alert :=
  let r1 := ctx.alerts.foldl
    (fun (acc : MonitorState × List Alert) alert =>
      let r := sendAlertIfNew acc.1 now alert
      (r.1, acc.2 ++ r.2))
    (st, [])
  let r2 := checkPositionChanges r1.1 ctx
  (r2.1, r1.2 ++ r2.2)

/-- A run of monitor ticks; the result log tags every delivered alert
with the instant of the tick that delivered it. -/
def runTicks (st : MonitorState) (ticks : List (TradingContext × Nat)) :
    MonitorState × List (Nat × Alert) :=
  ticks.foldl
    (fun (acc : MonitorState × List (Nat × Alert)) t =>
      let r := checkAndAlert acc.1 t.1 t.2
      (r.1, acc.2 ++ r.2.map (fun a => (t.2, a))))
    (st, [])

/-- The sample position driving the C2 counterexample. -/
def posA : PositionSummary :=
  { symbol := "BTCUSDT", side := "long", size := 1, entryPrice := 100
    markPrice := 100, unrealizedPnL := 0, pnlPercent := 0, leverage := 5
    liquidationPrice := 0, traderID := "tr", traderName := "T" }

/-! ## Agent loop (`agent.go`, `tool.go`) -/

/-- Go `ToolCall` from `agent.go`: requested tool name plus the raw JSON
argument text (`json.RawMessage` embedded as its text). -/
structure ToolCall where
  name : String
  arguments : String
  deriving Repr, DecidableEq

/-- Go `ToolResult` from `agent.go`.  The Go `Result interface{}` is `nil`
or a value (embedded as `Option` of its rendered form); the Go
`Error string` is the empty string when no error is carried. -/
structure ToolResult where
  name : String
  result : Option String
  error : String
  deriving Repr, DecidableEq

/-- The `Tool` interface from `tool.go`.  A handler returns a Go pair
(result, err): the result may be `nil` and the error, when present, is
its message string (possibly empty).  The cancellable context passed to
`Execute` is not consulted by any property proved here. -/
structure Tool where
  name : String
  description : String
  parameterSchema : String
  execute : String → Option String × Option String

/-- The agent's tool registry (Go `map[string]Tool`), embedded as an
association list keyed by name. -/
abbrev ToolRegistry := List (String × Tool)

/-- Go `AgentConfig` from `agent.go` (the AI timeout is wall-clock
behaviour of the external client and is not embedded). -/
structure AgentConfig where
  maxToolCalls : Nat
  maxHistoryMessages : Nat
  model : String := ""
  deriving Repr, DecidableEq

/-- One iteration of the dispatch loop in `Agent.executeToolCalls`:
unknown name yields a ToolResult carrying `"unknown tool: <name>"`;
otherwise the handler runs — an error yields a ToolResult carrying the
error message (the result field stays `nil`), success yields a
ToolResult carrying the handler's result (the error field stays `""`). -/
def execOneToolCall (tools : ToolRegistry) (call : ToolCall) : ToolResult :=
  match tools.lookup call.name with
  | none => { name := call.name, result := none, error := "unknown tool: " ++ call.name }
  | some tool =>
    match tool.execute call.arguments with
    | (_, some e) => { name := call.name, result := none, error := e }
    | (res, none) => { name := call.name, result := res, error := "" }

/-- Go `Agent.executeToolCalls`: run the requested calls sequentially in
request order, appending one result per call. -/
def executeToolCalls (tools : ToolRegistry) (calls : List ToolCall) : List ToolResult :=
  calls.foldl (fun results call => results ++ [execOneToolCall tools call]) []

/-- Two-call sample batch: the first name is unregistered, the second
is registered; both execute, in order. -/
def sampleRegistry : ToolRegistry :=
  [("a", { name := "a", description := "", parameterSchema := ""
           execute := fun _ => (some "ok", none) })]

/-- The invariant claimed for ToolResult: exactly one of result and
error is carried — a present result with an empty error string, or an
absent result with a non-empty error string. -/
def carriesExactlyOne (r : ToolResult) : Prop :=
  (r.result.isSome ∧ r.error = "") ∨ (r.result = none ∧ r.error ≠ "")

instance (r : ToolResult) : Decidable (carriesExactlyOne r) := by
  unfold carriesExactlyOne
  infer_instance

/-- A registered tool whose Go handler returns `(nil, nil)` — a legal
`Execute` outcome. -/
def nilResultRegistry : ToolRegistry :=
  [("t", { name := "t", description := "", parameterSchema := ""
           execute := fun _ => (none, none) })]

/-! ### Response parsing (`Agent.parseResponse`)

Strings are scanned at character granularity.  Go indexes bytes, but
the scanned delimiters `{` and `}` are single-byte characters, so the
slices between them are the same texts; only the numeric index values
differ on multi-byte prefixes, and no claim depends on those values. -/

/-- Go `strings.Contains(s, sub)`. -/
def containsSub (s sub : String) : Bool :=
  decide (sub.data <:+: s.data)

/-- Go `strings.Index(s, "{")`: position of the first `{`, `-1` when
absent. -/
def firstBrace (s : String) : Int :=
  match s.data.findIdx? (fun c => c == '\x7b') with
  | some i => (i : Int)
  | none => -1

/-- Go `strings.LastIndex(s, "}")`: position of the last `}`, `-1`
when absent. -/
def lastBrace (s : String) : Int :=
  match s.data.reverse.findIdx? (fun c => c == '\x7d') with
  | some i => ((s.data.length - 1 - i : Nat) : Int)
  | none => -1

/-- The slice `response[start : end+1]` between the first `{` and the
last `}`. -/
def bracedSubstring (s : String) : String :=
  ⟨(s.data.drop (firstBrace s).toNat).take ((lastBrace s).toNat + 1 - (firstBrace s).toNat)⟩

/-- Go `strings.TrimSpace`, embedded character-wise over the
whitespace class of `Char.isWhitespace`. -/
def trimStr (s : String) : String :=
  ⟨((s.data.dropWhile Char.isWhitespace).reverse.dropWhile Char.isWhitespace).reverse⟩

/-- Go `Agent.parseResponse`: when the response mentions `tool_calls` and
a `{`…`}` block exists, try to decode the block as the
`{"tool_calls": [...]}` shape (`unmarshal` embeds `json.Unmarshal`
into that struct, yielding the decoded call list); on success return
the calls together with the trimmed surrounding text, otherwise return
no calls and the whole response.  The returned error is always `nil`
in the source. -/
def parseResponse (unmarshal : String → Option (List ToolCall)) (response : String) :
    List ToolCall × String × Option String :=
  if containsSub response "tool_calls" then
    if firstBrace response ≥ 0 ∧ lastBrace response > firstBrace response then
      match unmarshal (bracedSubstring response) with
      | some calls =>
        (calls,
         trimStr ⟨response.data.take (firstBrace response).toNat ++
           response.data.drop ((lastBrace response).toNat + 1)⟩,
         none)
      | none => ([], response, none)
    else ([], response, none)
  else ([], response, none)

/-- The specified extraction semantics: the substring from the first
`{` to the last `}` (when such a well-formed block exists) decoded as
the tool-calls shape. -/
def extractDecode (unmarshal : String → Option (List ToolCall)) (s : String) :
    Option (List ToolCall) :=
  if firstBrace s ≥ 0 ∧ lastBrace s > firstBrace s then unmarshal (bracedSubstring s)
  else none

/-! ### The agent loop (`Agent.Chat`, `SmartAgent.Chat`) -/

/-- Fragment of the system prompt listing one tool. -/
def toolDef (t : Tool) : String :=
  "- **" ++ t.name ++ "**: " ++ t.description ++ "\n  Parameters: " ++ t.parameterSchema

/-- Go `Agent.buildSystemPromptWithTools` (registry iteration order is the
embedding's list order; Go map iteration order is unspecified). -/
def buildSystemPromptWithTools (systemPrompt : String) (tools : ToolRegistry) : String :=
  let toolDefs := tools.map (fun p => toolDef p.2)
  let toolsSection :=
    if toolDefs.length > 0 then
      "\n\n## Available Tools\n\nYou can call tools by responding with JSON in this format:\n" ++
      "\x7b\"tool_calls\": [\x7b\"name\": \"tool_name\", \"arguments\": \x7b\"param\": \"value\"\x7d\x7d]\x7d" ++
      "\n\nAfter receiving tool results, provide a natural language response to the user.\n\nTools:\n" ++
      String.intercalate "\n" toolDefs ++ "\n"
    else ""
  systemPrompt ++ toolsSection

/-- Go `strings.Title` restricted to the single-word role strings it is
applied to: upper-case the first character. -/
def titleCase (s : String) : String :=
  match s.data with
  | [] => ""
  | c :: cs => ⟨c.toUpper :: cs⟩

/-- Go `Agent.buildConversationPrompt`. -/
def buildConversationPrompt (session : Session) : String :=
  String.intercalate "\n\n"
    (session.getMessages.map (fun m => titleCase m.role ++ ": " ++ m.content))

/-- Go `formatToolCalls` from `agent.go`. -/
def formatToolCalls (calls : List ToolCall) : String :=
  String.intercalate "\n" (calls.map (fun c => "- " ++ c.name ++ "(" ++ c.arguments ++ ")"))

/-- Go `json.Marshal` of a dispatched result value: `nil` renders as
`null`, a value as its rendered form. -/
def marshalResult (r : Option String) : String :=
  match r with
  | some v => v
  | none => "null"

/-- Go `formatToolResults` from `agent.go`. -/
def formatToolResults (results : List ToolResult) : String :=
  String.intercalate "\n" (results.map (fun r =>
    if r.error ≠ "" then "- " ++ r.name ++ ": ERROR: " ++ r.error
    else "- " ++ r.name ++ ": " ++ marshalResult r.result))

/-- Observables of one run of the agent loop: the outcome (the final
text, or the propagated context/transport error), the total number of
individual tool executions performed, and the number of AI model calls
made. -/
structure LoopRes where
  outcome : Except String String
  execs : Nat
  modelCalls : Nat
  deriving Repr

/-- The trailing fold-back sentence of `Agent.Chat`. -/
def agentFoldbackTail : String :=
  "\n\nBased on the tool results, please provide your response to the user:"

/-- The trailing fold-back sentence of `SmartAgent.Chat`. -/
def smartFoldbackTail : String :=
  "\n\nBased on the tool results, provide a helpful response:"

/-- The `for` loop shared by `Agent.Chat` and `SmartAgent.Chat`
(they differ only in the fold-back tail and prompt construction).
External collaborators are oracles: `ai sys conv i` is the outcome of
the `i`-th `CallWithMessages(sys, conv)` of the turn, and `ctxErr i`
is `ctx.Err()` observed at the top of iteration `i`.  Each iteration:
check cancellation, check the tool-call cap (exit with the last
captured text), call the model (a transport failure aborts the turn),
parse the response (a parse error — never produced by the source —
would make the raw response final), exit with the text when no calls
were requested, otherwise execute the batch, grow the conversation
prompt with the rendered calls and results, capture any accompanying
text, and loop. -/
def chatLoop (cfg : AgentConfig) (ai : String → String → Nat → Except String String)
    (ctxErr : Nat → Option String) (unmarshal : String → Option (List ToolCall))
    (tools : ToolRegistry) (foldbackTail : String) (sys : String)
    (i toolCallCount : Nat) (conv final : String) : LoopRes :=
  match ctxErr i with
  | some e => ⟨.error e, 0, 0⟩
  | none =>
    if _h : toolCallCount ≥ cfg.maxToolCalls then ⟨.ok final, 0, 0⟩
    else
      match ai sys conv i with
      | .error e => ⟨.error ("AI call failed: " ++ e), 0, 1⟩
      | .ok response =>
        let pr := parseResponse unmarshal response
        match pr.2.2 with
        | some _ => ⟨.ok response, 0, 1⟩
        | none =>
          if _hl : pr.1.length = 0 then ⟨.ok pr.2.1, 0, 1⟩
          else
            let toolResults := executeToolCalls tools pr.1
            let conv' := conv ++ "\n\nAssistant called tools:\n" ++ formatToolCalls pr.1 ++
              "\n\nTool results:\n" ++ formatToolResults toolResults ++ foldbackTail
            let final' := if pr.2.1 ≠ "" then pr.2.1 else final
            let r := chatLoop cfg ai ctxErr unmarshal tools foldbackTail sys
              (i + 1) (toolCallCount + pr.1.length) conv' final'
            ⟨r.outcome, pr.1.length + r.execs, 1 + r.modelCalls⟩
termination_by cfg.maxToolCalls - toolCallCount
decreasing_by
  simp_wf
  have hne : (parseResponse unmarshal response).1.length ≠ 0 := _hl
  omega

/-- Go `AgentResponse` from `agent.go`. -/
structure AgentResponse where
  text : String
  sessionID : String
  deriving Repr, DecidableEq

/-- Go `Agent.Chat`: append the user message, build the prompts, run the
loop, and on success append the final answer as an assistant message;
on a context or transport error return the error with no response and
no assistant append.  `t1`/`t2` are the wall-clock instants of the two
`time.Now()` calls. -/
def agentChat (cfg : AgentConfig) (ai : String → String → Nat → Except String String)
    (ctxErr : Nat → Option String) (unmarshal : String → Option (List ToolCall))
    (tools : ToolRegistry) (systemPrompt : String) (session : Session)
    (userMessage : String) (t1 t2 : Nat) : Session × Except String AgentResponse :=
  let s1 := session.addMessage { role := "user", content := userMessage, timestamp := t1 } t1
  let sys := buildSystemPromptWithTools systemPrompt tools
  let conv := buildConversationPrompt s1
  let r := chatLoop cfg ai ctxErr unmarshal tools agentFoldbackTail sys 0 0 conv ""
  match r.outcome with
  | .error e => (s1, .error e)
  | .ok finalResponse =>
    (s1.addMessage { role := "assistant", content := finalResponse, timestamp := t2 } t2,
     .ok { text := finalResponse, sessionID := session.id })

/-- Go `SmartAgent.buildSmartConversationPrompt`: the live trading-state
digest (`FormatContextForPrompt` of the freshly built context — an
external-data-dependent string, passed as an oracle) when auto-inject
is on, followed by the session history. -/
def smartConversationPrompt (autoInject : Bool) (contextDigest : String)
    (session : Session) : String :=
  (if autoInject then contextDigest else "") ++
  String.join (session.getMessages.map
    (fun m => "\n" ++ titleCase m.role ++ ": " ++ m.content ++ "\n"))

/-- Go `SmartAgent.Chat`: same shape as `Agent.Chat` with the
context-injecting conversation prompt and its own fold-back tail. -/
def smartAgentChat (cfg : AgentConfig) (ai : String → String → Nat → Except String String)
    (ctxErr : Nat → Option String) (unmarshal : String → Option (List ToolCall))
    (tools : ToolRegistry) (systemPrompt : String) (autoInject : Bool)
    (contextDigest : String) (session : Session) (userMessage : String)
    (t1 t2 : Nat) : Session × Except String AgentResponse :=
  let s1 := session.addMessage { role := "user", content := userMessage, timestamp := t1 } t1
  let sys := buildSystemPromptWithTools systemPrompt tools
  let conv := smartConversationPrompt autoInject contextDigest s1
  let r := chatLoop cfg ai ctxErr unmarshal tools smartFoldbackTail sys 0 0 conv ""
  match r.outcome with
  | .error e => (s1, .error e)
  | .ok finalResponse =>
    (s1.addMessage { role := "assistant", content := finalResponse, timestamp := t2 } t2,
     .ok { text := finalResponse, sessionID := session.id })

/-- Configuration with `MaxToolCalls = 1` for the C1 counterexample. -/
def cfgEx : AgentConfig := { maxToolCalls := 1, maxHistoryMessages := 50 }

/-- A model response that is exactly one `{...}` block mentioning
`tool_calls`. -/
def rEx : String := "\x7btool_calls\x7d"

/-- Decoder oracle for the counterexample: the sample block decodes to
a batch of two calls; everything else fails to decode. -/
def umEx : String → Option (List ToolCall) :=
  fun s => if s = rEx then some [⟨"a", ""⟩, ⟨"b", ""⟩] else none

/-- AI oracle: the first call returns the two-call block, any later
call returns plain text. -/
def aiEx : String → String → Nat → Except String String :=
  fun _ _ i => if i = 0 then .ok rEx else .ok "done"

/-- A context that is never cancelled. -/
def ctxEx : Nat → Option String := fun _ => none

/-- Registry holding the two requested tools. -/
def toolsEx : ToolRegistry :=
  [("a", { name := "a", description := "", parameterSchema := ""
           execute := fun _ => (some "ok", none) }),
   ("b", { name := "b", description := "", parameterSchema := ""
           execute := fun _ => (some "ok", none) })]

/-- The extraction semantics C6 claims, following the spec's words and
with no pre-filter: for every response, the substring from the first
`{` to the last `}` is located and decoded; on success it is removed,
leaving the decoded calls and the trimmed surrounding text; when the
decode fails or no well-formed block is found, the entire raw response
is the final answer. -/
def claimedParseResponse (unmarshal : String → Option (List ToolCall))
    (response : String) : List ToolCall × String :=
  match extractDecode unmarshal response with
  | some calls =>
    (calls,
     trimStr ⟨response.data.take (firstBrace response).toNat ++
       response.data.drop ((lastBrace response).toNat + 1)⟩)
  | none => ([], response)

/-- Embeds the behavior of Go `json.Unmarshal` into the anonymous
`tool_calls` struct on the two braced blocks the C6 counterexample
uses: decoding `{}` and `{"a":1}` succeeds — `encoding/json` ignores
unknown and absent fields — leaving the `ToolCalls` slice nil, so the
parse loop appends no calls. -/
def goJsonOnBlocks : String → Option (List ToolCall) :=
  fun s => if s = "\x7b\x7d" ∨ s = "\x7b\"a\":1\x7d" then some [] else none

/-- An AI oracle that always fails with a transport error. -/
def aiFail : String → String → Nat → Except String String :=
  fun _ _ _ => .error "boom"

/-- The empty session used by the C10 witness. -/
def sessionW : Session := newSession "s" 50 0

/-! ## Lock discipline (C9)

The lock-versus-external-call structure of the cited functions is a
static property of the code; it is embedded as event traces read off
the source line by line: lock acquisitions/releases, external
(blocking) calls, and fire-and-forget task spawns. -/

/-- Read or write acquisition of a `sync.RWMutex`. -/
inductive LockMode where
  | read
  | write
  deriving Repr, DecidableEq

/-- One event of a code-path trace. -/
inductive Event where
  | acquire (lock : String) (mode : LockMode)
  | release (lock : String)
  | externalCall (what : String)
  | spawn (what : String)
  deriving Repr, DecidableEq

/-- The locks held (innermost first) after a trace runs from the given
held-set. -/
def heldAfter : List Event → List String → List String
  | [], held => held
  | .acquire l _ :: rest, held => heldAfter rest (l :: held)
  | .release l :: rest, held => heldAfter rest (held.erase l)
  | .externalCall _ :: rest, held => heldAfter rest held
  | .spawn _ :: rest, held => heldAfter rest held

/-- All locks held at the moment of each external call of a trace
(with multiplicity, in call order), starting from the given held-set. -/
def heldAtExternals : List Event → List String → List String
  | [], _ => []
  | .acquire l _ :: rest, held => heldAtExternals rest (l :: held)
  | .release l :: rest, held => heldAtExternals rest (held.erase l)
  | .externalCall _ :: rest, held => held ++ heldAtExternals rest held
  | .spawn _ :: rest, held => heldAtExternals rest held

/-- The locks held across some external call of a complete trace. -/
def locksHeldAcrossExternal (t : List Event) : List String :=
  heldAtExternals t []

/-- Trace of `Agent.executeToolCalls`: the tool-registry read lock is
taken (and, by `defer`, released only at the end), and every registered
call's handler — an external call — runs in between; unknown names make
no external call. -/
def executeToolCallsTrace (tools : ToolRegistry) (calls : List ToolCall) : List Event :=
  [.acquire "toolsLock" .read] ++
  (calls.flatMap fun call =>
    match tools.lookup call.name with
    | none => []
    | some _ => [.externalCall ("Tool.Execute " ++ call.name)]) ++
  [.release "toolsLock"]

/-- Trace of `Monitor.sendAlert`: the callback list is copied under the
read lock, the lock is released, and each callback is spawned as a
fire-and-forget task — no external call is made while holding the
lock. -/
def sendAlertTrace (numCallbacks : Nat) : List Event :=
  [.acquire "callbackMu" .read, .release "callbackMu"] ++
  (List.range numCallbacks).map (fun i => .spawn ("callback " ++ toString i))

/-- Trace of `Monitor.sendAlertIfNew`: the monitor's state lock is held
for the dedup check and, when the alert is delivered, across
`sendAlert` — which only copies the callback list (under its own lock)
and spawns tasks, making no external call. -/
def sendAlertIfNewTrace (delivered : Bool) (numCallbacks : Nat) : List Event :=
  [.acquire "mu" .write] ++
  (if delivered then sendAlertTrace numCallbacks else []) ++
  [.release "mu"]

/-! ## Theorems -/

theorem lastN_of_le {n : Nat} {l : List α} (h : l.length ≤ n) :
    lastN n l = l := by
  simp [lastN, Nat.sub_eq_zero_of_le h]

theorem lastN_append_lastN (n : Nat) (A B : List α) :
    lastN n (lastN n A ++ B) = lastN n (A ++ B) := by
  unfold lastN
  have hk : A.length - n ≤ A.length := Nat.sub_le _ _
  rw [show A.drop (A.length - n) ++ B = (A ++ B).drop (A.length - n) from
    (List.drop_append_of_le_length hk).symm]
  rw [List.drop_drop]
  congr 1
  simp only [List.length_drop, List.length_append]
  omega

theorem addMessage_messages (s : Session) (msg : Message) (now : Nat) :
    (s.addMessage msg now).messages = lastN s.maxMessages (s.messages ++ [msg]) ∨
    ((s.addMessage msg now).messages = s.messages ++ [msg] ∧
      (s.messages ++ [msg]).length ≤ s.maxMessages) := by
  unfold Session.addMessage
  by_cases h : (s.messages ++ [msg]).length > s.maxMessages
  · left; simp only [h, if_pos]; rfl
  · right
    constructor
    · simp only [h, if_neg]; rfl
    · omega

theorem addMessage_messages_eq (s : Session) (msg : Message) (now : Nat) :
    (s.addMessage msg now).messages = lastN s.maxMessages (s.messages ++ [msg]) := by
  rcases addMessage_messages s msg now with h | ⟨h, hlen⟩
  · exact h
  · rw [h, lastN_of_le hlen]

theorem addMessage_maxMessages (s : Session) (msg : Message) (now : Nat) :
    (s.addMessage msg now).maxMessages = s.maxMessages := rfl

/-- Folding a batch of `AddMessage` calls: the state always holds the
most recent `maxMessages` entries of everything inserted so far. -/
theorem foldl_addMessage_messages (M : Nat) :
    ∀ (msgs : List Message) (s : Session), s.maxMessages = M →
      s.messages.length ≤ M →
      (msgs.foldl (fun s m => s.addMessage m m.timestamp) s).messages =
        lastN M (s.messages ++ msgs) := by
  intro msgs
  induction msgs with
  | nil =>
    intro s hM hlen
    simp only [List.foldl_nil, List.append_nil]
    exact (lastN_of_le (by omega)).symm
  | cons m rest ih =>
    intro s hM hlen
    have hstep := addMessage_messages_eq s m m.timestamp
    rw [hM] at hstep
    have hstepM : (s.addMessage m m.timestamp).maxMessages = M := by
      rw [addMessage_maxMessages, hM]
    have hstepLen : (s.addMessage m m.timestamp).messages.length ≤ M := by
      rw [hstep]; simp only [lastN_length]; omega
    simp only [List.foldl_cons]
    rw [ih (s.addMessage m m.timestamp) hstepM hstepLen, hstep,
      lastN_append_lastN, List.append_assoc, List.singleton_append]

/-- C3.  For every session created with capacity `M`, after the `N`
messages of `msgs` are added sequentially, `GetMessages` returns a
sequence of length `min N M` equal to the last `min N M` inserted
messages in insertion order (the suffix `msgs.drop (N - M)`); the Go
`GetMessages` returns that sequence as a freshly copied slice,
independent of the backing array. -/
theorem C3_session_history_bounded (id : String) (M t0 : Nat) (msgs : List Message) :
    let final := msgs.foldl (fun s m => s.addMessage m m.timestamp) (newSession id M t0)
    final.getMessages.length = min msgs.length M ∧
    final.getMessages = msgs.drop (msgs.length - M) := by
  intro final
  have h : final.messages = lastN M ([] ++ msgs) :=
    foldl_addMessage_messages M msgs (newSession id M t0) rfl (by simp [newSession])
  simp only [List.nil_append] at h
  refine ⟨?_, ?_⟩
  · show final.messages.length = _
    rw [h]; simp
  · show final.messages = _
    rw [h]; rfl

theorem parsePosition_proj (raw : RawPosition) (tid tn : String) :
    (parsePosition raw tid tn).entryPrice = (parsePositionBase raw tid tn).entryPrice ∧
    (parsePosition raw tid tn).size = (parsePositionBase raw tid tn).size ∧
    (parsePosition raw tid tn).side = (parsePositionBase raw tid tn).side ∧
    (parsePosition raw tid tn).markPrice = (parsePositionBase raw tid tn).markPrice ∧
    (parsePosition raw tid tn).leverage = (parsePositionBase raw tid tn).leverage := by
  simp only [parsePosition]
  split_ifs <;> exact ⟨rfl, rfl, rfl, rfl, rfl⟩

/-- C4.  For every parsed position, the P&L percent equals
`((mark−entry)/entry)·100·leverage` when the side is `long` and
`((entry−mark)/entry)·100·leverage` when the side is `short` (the code
treats every non-`long` side by the short formula), and stays at its
default `0` when entry price or size is non-positive; on the sample
inputs (entry 100, mark 110, leverage 5, unit size) the long side
yields `50` and the short side `−50`. -/
theorem C4_pnl_percent (raw : RawPosition) (tid tn : String) :
    ((parsePosition raw tid tn).pnlPercent =
      if (parsePosition raw tid tn).entryPrice > 0 ∧ (parsePosition raw tid tn).size > 0 then
        if (parsePosition raw tid tn).side = "long" then
          ((parsePosition raw tid tn).markPrice - (parsePosition raw tid tn).entryPrice) /
            (parsePosition raw tid tn).entryPrice * 100 * ((parsePosition raw tid tn).leverage : ℚ)
        else
          ((parsePosition raw tid tn).entryPrice - (parsePosition raw tid tn).markPrice) /
            (parsePosition raw tid tn).entryPrice * 100 * ((parsePosition raw tid tn).leverage : ℚ)
      else 0) ∧
    (parsePosition rawLongSample "t" "T").pnlPercent = 50 ∧
    (parsePosition rawShortSample "t" "T").pnlPercent = -50 := by
  have hlong : toLowerStr "long" = "long" := by decide
  have hshort : toLowerStr "short" = "short" := by decide
  refine ⟨?_,
    by norm_num [parsePosition, parsePositionBase, rawLongSample, hlong],
    by norm_num [parsePosition, parsePositionBase, rawShortSample, hshort]; decide⟩
  obtain ⟨he, hs, hside, hm, hl⟩ := parsePosition_proj raw tid tn
  rw [he, hs, hside, hm, hl]
  simp only [parsePosition]
  split_ifs with h1 h2 <;> rfl

/-- C5.  For every position examined during alert derivation: with both
mark and liquidation price positive, a liquidation distance below 5%
yields exactly one danger `liquidation_risk` alert, a distance in
`[5,10)` exactly one warning, and a distance of 10% or more none (and
none at all when mark or liquidation price is non-positive); a P&L
percent below −20 yields exactly one danger `large_loss` alert, in
`[−20,−10)` exactly one warning, otherwise none; and a P&L percent
above 50 yields exactly one info `large_profit` alert. -/
theorem C5_position_alert_thresholds (pos : PositionSummary) :
    (((positionAlerts pos).filter (fun a => a.type == "liquidation_risk")).map Alert.level =
      if pos.liquidationPrice > 0 ∧ pos.markPrice > 0 then
        if liquidationDistance pos < 5 then ["danger"]
        else if liquidationDistance pos < 10 then ["warning"]
        else []
      else []) ∧
    (((positionAlerts pos).filter (fun a => a.type == "large_loss")).map Alert.level =
      if pos.pnlPercent < -20 then ["danger"]
      else if pos.pnlPercent < -10 then ["warning"]
      else []) ∧
    (((positionAlerts pos).filter (fun a => a.type == "large_profit")).map Alert.level =
      if pos.pnlPercent > 50 then ["info"]
      else []) := by
  unfold positionAlerts
  split_ifs <;> simp [List.filter_append, List.filter_cons, List.filter_nil]

theorem lookup_insertA (m : List (String × α)) (k : String) (v : α) :
    (insertA m k v).lookup k = some v := by
  unfold insertA
  induction m with
  | nil => simp [List.lookup]
  | cons p m ih =>
    obtain ⟨pk, pv⟩ := p
    by_cases hp : pk = k
    · subst hp
      simpa [List.filter_cons] using ih
    · have hb : (pk == k) = false := beq_false_of_ne hp
      have hb' : (k == pk) = false := beq_false_of_ne (Ne.symm hp)
      simp [List.filter_cons, hb, List.lookup_cons, hb', ih]

/-- Counterexample to C2 as stated.  Three ticks 60 seconds apart whose
position sets are {A}, {}, {A} deliver the `new_position` alert for A
twice — at instants 0 and 120, only 120 seconds apart — with the
identical (type, message) key: position-change alerts are sent via
`sendAlert` directly and bypass the 5-minute suppression window, so the
window does not hold "regardless of which path produced" the alert. -/
theorem C2_counterexample :
    (runTicks {} [({ positions := [posA] }, 0), ({ positions := [] }, 60),
        ({ positions := [posA] }, 120)]).2 =
      [(0, ⟨"info", "new_position", newPositionMsg posA⟩),
       (60, ⟨"info", "position_closed", positionClosedMsg posA⟩),
       (120, ⟨"info", "new_position", newPositionMsg posA⟩)] ∧
    120 - 0 < 300 := by
  constructor
  · decide
  · decide

/-- C2 (amended).  The 5-minute suppression window holds exactly on the
deduplication-filter path (`sendAlertIfNew`, the path every
context-derived alert takes): an alert whose (type,message) key was
recorded at `t0` is suppressed, with no state change, when emitted
again before 300 seconds have passed, and is delivered again — with the
delivery instant re-recorded — at or after 300 seconds (or when the key
was never recorded).  Position-change alerts bypass this filter: the
position-change pass never reads or writes the last-alert clock. -/
theorem C2_dedup_window_on_filtered_path (st : MonitorState) (now : Nat) (alert : Alert) :
    (∀ t0, st.lastAlerts.lookup (dedupKey alert) = some t0 →
      ((now - t0 < 300 → sendAlertIfNew st now alert = (st, [])) ∧
       (300 ≤ now - t0 →
         (sendAlertIfNew st now alert).2 = [alert] ∧
         (sendAlertIfNew st now alert).1.lastAlerts.lookup (dedupKey alert) = some now))) ∧
    (st.lastAlerts.lookup (dedupKey alert) = none →
      (sendAlertIfNew st now alert).2 = [alert] ∧
      (sendAlertIfNew st now alert).1.lastAlerts.lookup (dedupKey alert) = some now) ∧
    (∀ ctx, (checkPositionChanges st ctx).1.lastAlerts = st.lastAlerts) := by
  refine ⟨?_, ?_, fun ctx => rfl⟩
  · intro t0 h0
    constructor
    · intro hlt
      simp [sendAlertIfNew, h0, hlt]
    · intro hge
      have hnlt : ¬(now - t0 < 300) := by omega
      simp [sendAlertIfNew, h0, hnlt, sendAlert, lookup_insertA]
  · intro h0
    simp [sendAlertIfNew, h0, sendAlert, lookup_insertA]

/-- Concrete instance of the amended C2 theorem: with the key of a
danger/liquidation-risk alert recorded at instant 0, re-emission at 100
seconds is suppressed and re-emission at 400 seconds is delivered. -/
theorem C2_dedup_window_on_filtered_path_witness :
    sendAlertIfNew ⟨[], [("liquidation_risk_m", 0)]⟩ 100
        ⟨"danger", "liquidation_risk", "m"⟩ =
      (⟨[], [("liquidation_risk_m", 0)]⟩, []) ∧
    (sendAlertIfNew ⟨[], [("liquidation_risk_m", 0)]⟩ 400
        ⟨"danger", "liquidation_risk", "m"⟩).2 =
      [⟨"danger", "liquidation_risk", "m"⟩] :=
  ⟨((C2_dedup_window_on_filtered_path ⟨[], [("liquidation_risk_m", 0)]⟩ 100
      ⟨"danger", "liquidation_risk", "m"⟩).1 0 (by decide)).1 (by decide),
   ((((C2_dedup_window_on_filtered_path ⟨[], [("liquidation_risk_m", 0)]⟩ 400
      ⟨"danger", "liquidation_risk", "m"⟩).1 0 (by decide)).2) (by decide)).1⟩

theorem foldl_snoc_eq_map (f : α → β) (calls : List α) :
    ∀ acc : List β, calls.foldl (fun rs c => rs ++ [f c]) acc = acc ++ calls.map f := by
  induction calls with
  | nil => simp
  | cons c cs ih => intro acc; simp [ih]

/-- C7.  The dispatcher executes a batch sequentially in request order
with no reordering: the result list is exactly the per-call results in
request order (one ToolResult per requested call, so the `i`-th result
comes from the `i`-th call), and a call whose name is not registered
produces a ToolResult carrying an `unknown tool` error while — being
just one more mapped element — it does not stop the remaining calls
from executing. -/
theorem C7_dispatcher_sequential_batch (tools : ToolRegistry) (calls : List ToolCall) :
    executeToolCalls tools calls = calls.map (execOneToolCall tools) ∧
    (executeToolCalls tools calls).length = calls.length ∧
    (∀ i (h1 : i < calls.length) (h2 : i < (executeToolCalls tools calls).length),
      (executeToolCalls tools calls).get ⟨i, h2⟩ = execOneToolCall tools (calls.get ⟨i, h1⟩)) ∧
    (∀ call : ToolCall, tools.lookup call.name = none →
      execOneToolCall tools call =
        { name := call.name, result := none, error := "unknown tool: " ++ call.name }) := by
  have hmap : executeToolCalls tools calls = calls.map (execOneToolCall tools) := by
    simpa using foldl_snoc_eq_map (execOneToolCall tools) calls []
  refine ⟨hmap, by simp [hmap], ?_, ?_⟩
  · intro i h1 h2
    simp [hmap]
  · intro call h
    simp [execOneToolCall, h]

/-- Instance of C7: on the batch `[x, a]` against a registry holding
only `a`, the unknown call `x` yields an error result and the batch
still produces one result per call in order. -/
theorem C7_dispatcher_sequential_batch_witness :
    execOneToolCall sampleRegistry ⟨"x", ""⟩ =
      { name := "x", result := none, error := "unknown tool: x" } ∧
    (executeToolCalls sampleRegistry [⟨"x", ""⟩, ⟨"a", ""⟩]).get ⟨1, by decide⟩ =
      execOneToolCall sampleRegistry (([⟨"x", ""⟩, ⟨"a", ""⟩] : List ToolCall).get ⟨1, by decide⟩) :=
  ⟨(C7_dispatcher_sequential_batch sampleRegistry [⟨"x", ""⟩, ⟨"a", ""⟩]).2.2.2 ⟨"x", ""⟩ rfl,
   (C7_dispatcher_sequential_batch sampleRegistry [⟨"x", ""⟩, ⟨"a", ""⟩]).2.2.1 1
     (by decide) (by decide)⟩

/-- Counterexample to C8 as stated.  A handler returning Go `(nil,
nil)` makes the dispatcher produce a ToolResult whose result is absent
and whose error string is empty — carrying neither of {result, error},
so "never neither" fails for such a handler. -/
theorem C8_counterexample :
    executeToolCalls nilResultRegistry [⟨"t", ""⟩] =
      [{ name := "t", result := none, error := "" }] ∧
    ¬ carriesExactlyOne { name := "t", result := none, error := "" } := by
  constructor
  · decide
  · decide

theorem unknown_tool_msg_ne_empty (s : String) : "unknown tool: " ++ s ≠ "" := by
  intro h
  have h2 := congrArg String.length h
  have h3 : "unknown tool: ".length = 14 := by decide
  simp [h3] at h2

/-- Case characterization of one dispatch step. -/
theorem execOne_spec (tools : ToolRegistry) (call : ToolCall) :
    (tools.lookup call.name = none ∧
      execOneToolCall tools call =
        { name := call.name, result := none, error := "unknown tool: " ++ call.name }) ∨
    (∃ tool, tools.lookup call.name = some tool ∧
      ((∃ r e, tool.execute call.arguments = (r, some e) ∧
         execOneToolCall tools call = { name := call.name, result := none, error := e }) ∨
       (∃ r, tool.execute call.arguments = (r, none) ∧
         execOneToolCall tools call = { name := call.name, result := r, error := "" }))) := by
  unfold execOneToolCall
  split
  · next hm => exact Or.inl ⟨hm, rfl⟩
  · next tool hm =>
    right
    refine ⟨tool, hm, ?_⟩
    split
    · next r e hexec => exact Or.inl ⟨r, e, hexec, rfl⟩
    · next r hexec => exact Or.inr ⟨r, hexec, rfl⟩

theorem lookup_mem {α : Type u} (m : List (String × α)) (k : String) (v : α)
    (h : m.lookup k = some v) : (k, v) ∈ m := by
  induction m with
  | nil => simp [List.lookup] at h
  | cons p m ih =>
    obtain ⟨pk, pv⟩ := p
    by_cases hp : k = pk
    · subst hp
      simp [List.lookup_cons] at h
      simp [h]
    · rw [List.lookup_cons] at h
      simp only [beq_false_of_ne hp] at h
      exact List.mem_cons_of_mem _ (ih h)

/-- C8 (amended).  Every ToolResult the dispatcher produces carries at
most one of {result, error} — never both; it carries exactly one
provided every registered handler is well-behaved in the Go sense the
claim presumes (a non-nil result on success and a non-empty error
message on failure).  Unknown names always yield exactly one (a
non-empty error).  A handler returning `(nil, nil)` or an empty error
message produces a result carrying neither — see the counterexample. -/
theorem C8_result_xor_error (tools : ToolRegistry) (calls : List ToolCall) :
    (∀ r ∈ executeToolCalls tools calls, ¬(r.result.isSome ∧ r.error ≠ "")) ∧
    ((∀ p ∈ tools, ∀ args : String,
        ((p.2.execute args).2 = none → (p.2.execute args).1.isSome) ∧
        (∀ e, (p.2.execute args).2 = some e → e ≠ "")) →
      ∀ r ∈ executeToolCalls tools calls, carriesExactlyOne r) := by
  have hmap : executeToolCalls tools calls = calls.map (execOneToolCall tools) := by
    simpa using foldl_snoc_eq_map (execOneToolCall tools) calls []
  constructor
  · intro r hr
    rw [hmap] at hr
    obtain ⟨call, _, rfl⟩ := List.mem_map.1 hr
    rcases execOne_spec tools call with ⟨_, heq⟩ | ⟨tool, _, ⟨r, e, _, heq⟩ | ⟨r, _, heq⟩⟩ <;>
      simp [heq]
  · intro hgood r hr
    rw [hmap] at hr
    obtain ⟨call, _, rfl⟩ := List.mem_map.1 hr
    rcases execOne_spec tools call with ⟨_, heq⟩ | ⟨tool, hm, hcase⟩
    · simp [heq, carriesExactlyOne, unknown_tool_msg_ne_empty]
    · have hmem : (call.name, tool) ∈ tools := lookup_mem tools call.name tool hm
      have hg := hgood (call.name, tool) hmem call.arguments
      rcases hcase with ⟨r, e, hexec, heq⟩ | ⟨r, hexec, heq⟩
      · have he : e ≠ "" := hg.2 e (by rw [hexec])
        simp [heq, carriesExactlyOne, he]
      · have hres : r.isSome := by
          have h1 := hg.1 (by rw [hexec])
          rwa [hexec] at h1
        simp [heq, carriesExactlyOne, hres]

/-- Instance of the amended C8 theorem on a well-behaved registry: the
results of an unknown call and of a successful call each carry exactly
one of {result, error}. -/
theorem C8_result_xor_error_witness :
    ∀ r ∈ executeToolCalls sampleRegistry [⟨"x", ""⟩, ⟨"a", ""⟩], carriesExactlyOne r :=
  (C8_result_xor_error sampleRegistry [⟨"x", ""⟩, ⟨"a", ""⟩]).2
    (by
      intro p hp args
      simp only [sampleRegistry, List.mem_singleton] at hp
      subst hp
      exact ⟨fun _ => rfl, fun e he => by simp at he⟩)

theorem parseResponse_err_none (unmarshal : String → Option (List ToolCall))
    (response : String) : (parseResponse unmarshal response).2.2 = none := by
  unfold parseResponse
  split_ifs <;> try rfl
  split <;> rfl

/-- Reaching the tool-call cap (with the context still live) ends the
loop at once: no model call, no tool execution, and the last captured
text — possibly empty — is the outcome. -/
theorem chatLoop_at_cap (cfg : AgentConfig) (ai : String → String → Nat → Except String String)
    (ctxErr : Nat → Option String) (unmarshal : String → Option (List ToolCall))
    (tools : ToolRegistry) (tail sys : String) (i tcc : Nat) (conv final : String)
    (hctx : ctxErr i = none) (hcap : cfg.maxToolCalls ≤ tcc) :
    chatLoop cfg ai ctxErr unmarshal tools tail sys i tcc conv final =
      ⟨.ok final, 0, 0⟩ := by
  unfold chatLoop
  rw [hctx]
  simp [hcap]

/-- A model response whose parse yields no tool calls ends the loop
with that parse's text and no further model call. -/
theorem chatLoop_exit_on_no_calls (cfg : AgentConfig)
    (ai : String → String → Nat → Except String String)
    (ctxErr : Nat → Option String) (unmarshal : String → Option (List ToolCall))
    (tools : ToolRegistry) (tail sys : String) (i tcc : Nat) (conv final response : String)
    (hctx : ctxErr i = none) (hcap : tcc < cfg.maxToolCalls)
    (hai : ai sys conv i = .ok response)
    (hnone : (parseResponse unmarshal response).1 = []) :
    chatLoop cfg ai ctxErr unmarshal tools tail sys i tcc conv final =
      ⟨.ok (parseResponse unmarshal response).2.1, 0, 1⟩ := by
  unfold chatLoop
  rw [hctx]
  have hcap2 : ¬ tcc ≥ cfg.maxToolCalls := by omega
  simp only [hcap2, dite_false, dif_neg]
  rw [hai]
  simp [parseResponse_err_none, hnone]

/-- The loop makes at most `maxToolCalls - toolCallCount` further model
calls: each continuing iteration raises the counter by at least one and
the counter is checked before every call. -/
theorem chatLoop_modelCalls_le (cfg : AgentConfig)
    (ai : String → String → Nat → Except String String)
    (ctxErr : Nat → Option String) (unmarshal : String → Option (List ToolCall))
    (tools : ToolRegistry) (tail sys : String) :
    ∀ k i tcc conv final, cfg.maxToolCalls - tcc ≤ k →
      (chatLoop cfg ai ctxErr unmarshal tools tail sys i tcc conv final).modelCalls ≤
        cfg.maxToolCalls - tcc := by
  intro k
  induction k with
  | zero =>
    intro i tcc conv final hk
    unfold chatLoop
    cases hctx : ctxErr i with
    | some e => simp
    | none =>
      have hcap : tcc ≥ cfg.maxToolCalls := by omega
      simp [hcap]
  | succ k ih =>
    intro i tcc conv final hk
    unfold chatLoop
    cases hctx : ctxErr i with
    | some e => simp
    | none =>
      by_cases hcap : tcc ≥ cfg.maxToolCalls
      · simp [hcap]
      · simp only [hcap, dite_false, dif_neg]
        cases hai : ai sys conv i with
        | error e => simp; omega
        | ok response =>
          simp only [parseResponse_err_none]
          by_cases hl : (parseResponse unmarshal response).1.length = 0
          · simp [hl]; omega
          · simp only [hl, dite_false, dif_neg]
            have hrec := fun c f => ih (i + 1)
              (tcc + (parseResponse unmarshal response).1.length) c f (by omega)
            refine le_trans (Nat.add_le_add_left (hrec _ _) 1) ?_
            omega

/-- The parsed call list is empty or comes verbatim from a successful
decode. -/
theorem parseResponse_calls (um : String → Option (List ToolCall)) (r : String) :
    (parseResponse um r).1 = [] ∨ ∃ s, um s = some ((parseResponse um r).1) := by
  unfold parseResponse
  split_ifs with h1 h2
  · split
    · next calls hm => exact Or.inr ⟨bracedSubstring r, hm⟩
    · next hm => exact Or.inl rfl
  · exact Or.inl rfl
  · exact Or.inl rfl

/-- When every decodable batch holds at most one call, the loop
performs at most `maxToolCalls - toolCallCount` further tool
executions. -/
theorem chatLoop_execs_le (cfg : AgentConfig)
    (ai : String → String → Nat → Except String String)
    (ctxErr : Nat → Option String) (unmarshal : String → Option (List ToolCall))
    (tools : ToolRegistry) (tail sys : String)
    (hb : ∀ s l, unmarshal s = some l → l.length ≤ 1) :
    ∀ k i tcc conv final, cfg.maxToolCalls - tcc ≤ k →
      (chatLoop cfg ai ctxErr unmarshal tools tail sys i tcc conv final).execs ≤
        cfg.maxToolCalls - tcc := by
  intro k
  induction k with
  | zero =>
    intro i tcc conv final hk
    unfold chatLoop
    cases hctx : ctxErr i with
    | some e => simp
    | none =>
      have hcap : tcc ≥ cfg.maxToolCalls := by omega
      simp [hcap]
  | succ k ih =>
    intro i tcc conv final hk
    unfold chatLoop
    cases hctx : ctxErr i with
    | some e => simp
    | none =>
      by_cases hcap : tcc ≥ cfg.maxToolCalls
      · simp [hcap]
      · simp only [hcap, dite_false, dif_neg]
        cases hai : ai sys conv i with
        | error e => simp
        | ok response =>
          simp only [parseResponse_err_none]
          by_cases hl : (parseResponse unmarshal response).1.length = 0
          · simp [hl]
          · simp only [hl, dite_false, dif_neg]
            have hlen1 : (parseResponse unmarshal response).1.length ≤ 1 := by
              rcases parseResponse_calls unmarshal response with hnil | ⟨s, hs⟩
              · rw [hnil]; simp
              · exact hb s _ hs
            have hrec := fun c f => ih (i + 1)
              (tcc + (parseResponse unmarshal response).1.length) c f (by omega)
            refine le_trans (Nat.add_le_add_left (hrec _ _) _) ?_
            omega

/-- C1 (amended).  The tool-call counter is checked before every model
call, so: with the counter at or past `MaxToolCalls` the loop exits at
once with no model call and no tool execution, returning the last
captured text, which may be empty; a turn makes at most
`MaxToolCalls − counter` model calls; and it performs at most
`MaxToolCalls − counter` tool executions provided each model response
requests at most one tool call (both `Chat` variants enter with the
counter at 0, giving the `MaxToolCalls` bounds the spec states).  A
single response carrying a batch of `b > 1` calls can overshoot the
cap by `b − 1`, because the whole batch executes before the counter is
re-checked — see the counterexample. -/
theorem C1_tool_call_cap (cfg : AgentConfig)
    (ai : String → String → Nat → Except String String)
    (ctxErr : Nat → Option String) (unmarshal : String → Option (List ToolCall))
    (tools : ToolRegistry) (tail sys : String) :
    (∀ i tcc conv final, ctxErr i = none → cfg.maxToolCalls ≤ tcc →
      chatLoop cfg ai ctxErr unmarshal tools tail sys i tcc conv final =
        ⟨.ok final, 0, 0⟩) ∧
    (∀ i tcc conv final,
      (chatLoop cfg ai ctxErr unmarshal tools tail sys i tcc conv final).modelCalls ≤
        cfg.maxToolCalls - tcc) ∧
    ((∀ s l, unmarshal s = some l → l.length ≤ 1) →
      ∀ i tcc conv final,
        (chatLoop cfg ai ctxErr unmarshal tools tail sys i tcc conv final).execs ≤
          cfg.maxToolCalls - tcc) :=
  ⟨fun i tcc conv final hctx hcap =>
     chatLoop_at_cap cfg ai ctxErr unmarshal tools tail sys i tcc conv final hctx hcap,
   fun i tcc conv final =>
     chatLoop_modelCalls_le cfg ai ctxErr unmarshal tools tail sys
       (cfg.maxToolCalls - tcc) i tcc conv final le_rfl,
   fun hb i tcc conv final =>
     chatLoop_execs_le cfg ai ctxErr unmarshal tools tail sys hb
       (cfg.maxToolCalls - tcc) i tcc conv final le_rfl⟩

/-- One continuing loop iteration, seen through the execution counter:
when the context is live, the cap not reached, the model answers, and
the parse yields a non-empty batch, the turn's executions are the
batch size plus those of the rest of the loop. -/
theorem chatLoop_step_execs (cfg : AgentConfig)
    (ai : String → String → Nat → Except String String)
    (ctxErr : Nat → Option String) (unmarshal : String → Option (List ToolCall))
    (tools : ToolRegistry) (tail sys : String) (i tcc : Nat) (conv final response : String)
    (hctx : ctxErr i = none) (hcap : tcc < cfg.maxToolCalls)
    (hai : ai sys conv i = .ok response)
    (hl : (parseResponse unmarshal response).1.length ≠ 0) :
    (chatLoop cfg ai ctxErr unmarshal tools tail sys i tcc conv final).execs =
      (parseResponse unmarshal response).1.length +
      (chatLoop cfg ai ctxErr unmarshal tools tail sys (i + 1)
        (tcc + (parseResponse unmarshal response).1.length)
        (conv ++ "\n\nAssistant called tools:\n" ++
          formatToolCalls (parseResponse unmarshal response).1 ++
          "\n\nTool results:\n" ++
          formatToolResults (executeToolCalls tools (parseResponse unmarshal response).1) ++
          tail)
        (if (parseResponse unmarshal response).2.1 ≠ "" then
          (parseResponse unmarshal response).2.1
         else final)).execs := by
  conv_lhs => rw [chatLoop]
  rw [hctx]
  have hcap2 : ¬ tcc ≥ cfg.maxToolCalls := by omega
  rw [dif_neg hcap2, hai]
  simp only [parseResponse_err_none, dif_neg hl]

/-- Counterexample to C1 as stated.  With `MaxToolCalls = 1`, a single
model response requesting a batch of two tool calls makes the turn
execute 2 tools — exceeding the configured maximum — because the cap is
only checked before the next model call, after the whole batch ran. -/
theorem C1_counterexample :
    (chatLoop cfgEx aiEx ctxEx umEx toolsEx agentFoldbackTail "" 0 0 "" "").execs = 2 ∧
    cfgEx.maxToolCalls = 1 := by
  constructor
  · rw [chatLoop_step_execs cfgEx aiEx ctxEx umEx toolsEx agentFoldbackTail "" 0 0 "" ""
      rEx rfl (by decide) rfl (by decide)]
    rw [chatLoop_at_cap cfgEx aiEx ctxEx umEx toolsEx agentFoldbackTail ""]
    · decide
    · rfl
    · decide
  · rfl

/-- Instance of the amended C1 theorem: at a counter past the cap the
loop returns the last captured text untouched, and with single-call
batches (here: a decoder that never succeeds) the execution count stays
within the cap. -/
theorem C1_tool_call_cap_witness :
    chatLoop cfgEx aiEx ctxEx (fun _ => none) toolsEx agentFoldbackTail "" 0 3 "c" "x" =
      ⟨.ok "x", 0, 0⟩ ∧
    (chatLoop cfgEx aiEx ctxEx (fun _ => none) toolsEx agentFoldbackTail "" 5 0 "c" "x").execs ≤
      cfgEx.maxToolCalls - 0 :=
  ⟨(C1_tool_call_cap cfgEx aiEx ctxEx (fun _ => none) toolsEx agentFoldbackTail "").1
      0 3 "c" "x" rfl (by decide),
   (C1_tool_call_cap cfgEx aiEx ctxEx (fun _ => none) toolsEx agentFoldbackTail "").2.2
      (fun s l h => by simp at h) 5 0 "c" "x"⟩

/-- Counterexample to C6 as stated.  The source attempts extraction
only when the response contains the substring `tool_calls`
(`strings.Contains`, agent.go), and its decoder — `json.Unmarshal`
into the `tool_calls` struct — also succeeds on braced JSON lacking
the key, so no reading of "decode as the shape" makes the claim hold
for every response string.  Under the program's own lenient decode
semantics (embedded on the relevant blocks by `goJsonOnBlocks`): on
`hi {} there` the block `{}` decodes, so the claim says it is removed
and the text `hi  there` remains, yet the code skips extraction and
the final answer is the entire raw response; and on
`use tool_calls: {"a":1}` the code removes a block carrying no
`tool_calls` key — the final answer is the trimmed prose, not the
entire raw response that a strict-shape reading of "decode fails"
would require. -/
theorem C6_counterexample :
    claimedParseResponse goJsonOnBlocks "hi \x7b\x7d there" = ([], "hi  there") ∧
    parseResponse goJsonOnBlocks "hi \x7b\x7d there" = ([], "hi \x7b\x7d there", none) ∧
    parseResponse goJsonOnBlocks "use tool_calls: \x7b\"a\":1\x7d" =
      ([], "use tool_calls:", none) := by
  refine ⟨?_, ?_, ?_⟩
  · decide
  · decide
  · decide

/-- C6 (amended).  For every model response string: extraction is
attempted only when the response contains the substring `tool_calls`;
it then locates the substring from the first `{` to the last `}` and
attempts to decode it (with Go's lenient decoder, which may succeed
without the `tool_calls` key present); on successful decode the
extracted substring is removed and the trimmed surrounding text is
what remains; when the response lacks the `tool_calls` substring, no
well-formed block is found, or the decode fails, the turn's final
answer equals the entire raw response — and in every case whose parse
yields no tool calls the loop ends the turn with the parse's text
after that single model call, with no retry and no correction
prompt. -/
theorem C6_guarded_brace_extraction (unmarshal : String → Option (List ToolCall)) :
    (∀ response calls,
      containsSub response "tool_calls" = true →
      extractDecode unmarshal response = some calls →
      parseResponse unmarshal response =
        (calls,
         trimStr ⟨response.data.take (firstBrace response).toNat ++
           response.data.drop ((lastBrace response).toNat + 1)⟩,
         none)) ∧
    (∀ response,
      containsSub response "tool_calls" = false ∨
        extractDecode unmarshal response = none →
      parseResponse unmarshal response = ([], response, none)) ∧
    (∀ (cfg : AgentConfig) ai ctxErr (tools : ToolRegistry) tail sys i tcc conv final
        response,
      ctxErr i = none → tcc < cfg.maxToolCalls → ai sys conv i = .ok response →
      (parseResponse unmarshal response).1 = [] →
      chatLoop cfg ai ctxErr unmarshal tools tail sys i tcc conv final =
        ⟨.ok (parseResponse unmarshal response).2.1, 0, 1⟩) := by
  refine ⟨?_, ?_, ?_⟩
  · intro response calls hc hd
    unfold extractDecode at hd
    by_cases hb : firstBrace response ≥ 0 ∧ lastBrace response > firstBrace response
    · rw [if_pos hb] at hd
      unfold parseResponse
      rw [if_pos hc, if_pos hb, hd]
    · rw [if_neg hb] at hd
      simp at hd
  · intro response hd
    unfold parseResponse
    rcases hd with hc | hd
    · rw [if_neg (by simp [hc] : ¬ containsSub response "tool_calls" = true)]
    · unfold extractDecode at hd
      by_cases hc : containsSub response "tool_calls" = true
      · rw [if_pos hc]
        by_cases hb : firstBrace response ≥ 0 ∧ lastBrace response > firstBrace response
        · rw [if_pos hb] at hd ⊢
          rw [hd]
        · rw [if_neg hb]
      · rw [if_neg hc]
  · intro cfg ai ctxErr tools tail sys i tcc conv final response hctx hcap hai hl
    exact chatLoop_exit_on_no_calls cfg ai ctxErr unmarshal tools tail sys i tcc conv
      final response hctx hcap hai hl

/-- Instance of the amended C6 theorem, at the counterexample's own
decoder: the guarded path removes the decodable `{"a":1}` block and
keeps the trimmed prose, and the `tool_calls`-free response falls back
to the entire raw response. -/
theorem C6_guarded_brace_extraction_witness :
    parseResponse goJsonOnBlocks "use tool_calls: \x7b\"a\":1\x7d" =
      ([], "use tool_calls:", none) ∧
    parseResponse goJsonOnBlocks "hi2 \x7b\x7d there" = ([], "hi2 \x7b\x7d there", none) := by
  constructor
  · have h := (C6_guarded_brace_extraction goJsonOnBlocks).1
      "use tool_calls: \x7b\"a\":1\x7d" [] (by decide) (by decide)
    rw [h]
    decide
  · exact (C6_guarded_brace_extraction goJsonOnBlocks).2.1 "hi2 \x7b\x7d there"
      (Or.inl (by decide))

/-- C10.  A turn that aborts with a transport (AI completion) error or
a cancellation error — the only error sources of the loop — returns the
error with no response, and the session it leaves behind is exactly the
input session with the user message appended: the user message is not
rolled back and no assistant message is appended.  This holds for both
`Agent.Chat` and `SmartAgent.Chat`. -/
theorem C10_error_turn_session (cfg : AgentConfig)
    (ai : String → String → Nat → Except String String)
    (ctxErr : Nat → Option String) (unmarshal : String → Option (List ToolCall))
    (tools : ToolRegistry) (systemPrompt : String) (autoInject : Bool)
    (contextDigest : String) (session : Session) (userMessage : String) (t1 t2 : Nat) :
    (∀ e, (agentChat cfg ai ctxErr unmarshal tools systemPrompt session
        userMessage t1 t2).2 = .error e →
      agentChat cfg ai ctxErr unmarshal tools systemPrompt session userMessage t1 t2 =
        (session.addMessage { role := "user", content := userMessage, timestamp := t1 } t1,
         .error e)) ∧
    (∀ e, (smartAgentChat cfg ai ctxErr unmarshal tools systemPrompt autoInject
        contextDigest session userMessage t1 t2).2 = .error e →
      smartAgentChat cfg ai ctxErr unmarshal tools systemPrompt autoInject contextDigest
          session userMessage t1 t2 =
        (session.addMessage { role := "user", content := userMessage, timestamp := t1 } t1,
         .error e)) := by
  constructor
  · intro e h
    simp only [agentChat] at h ⊢
    split at h <;> simp_all
  · intro e h
    simp only [smartAgentChat] at h ⊢
    split at h <;> simp_all

/-- A transport failure of the model call aborts the loop with the
wrapped error after that single call. -/
theorem chatLoop_ai_error (cfg : AgentConfig)
    (ai : String → String → Nat → Except String String)
    (ctxErr : Nat → Option String) (unmarshal : String → Option (List ToolCall))
    (tools : ToolRegistry) (tail sys : String) (i tcc : Nat) (conv final : String)
    (e : String) (hctx : ctxErr i = none) (hcap : tcc < cfg.maxToolCalls)
    (hai : ai sys conv i = .error e) :
    chatLoop cfg ai ctxErr unmarshal tools tail sys i tcc conv final =
      ⟨.error ("AI call failed: " ++ e), 0, 1⟩ := by
  unfold chatLoop
  rw [hctx, dif_neg (by omega : ¬ tcc ≥ cfg.maxToolCalls), hai]

/-- Instance of C10: a turn whose first model call fails leaves exactly
the user message in the session and surfaces the wrapped error. -/
theorem C10_error_turn_session_witness :
    agentChat cfgEx aiFail ctxEx umEx toolsEx "sys" sessionW "hello" 1 2 =
      (sessionW.addMessage { role := "user", content := "hello", timestamp := 1 } 1,
       .error "AI call failed: boom") := by
  apply (C10_error_turn_session cfgEx aiFail ctxEx umEx toolsEx "sys" true ""
    sessionW "hello" 1 2).1
  simp only [agentChat]
  rw [chatLoop_ai_error cfgEx aiFail ctxEx umEx toolsEx agentFoldbackTail
    (buildSystemPromptWithTools "sys" toolsEx) 0 0 _ "" "boom" rfl (by decide) rfl]
  rfl

theorem heldAtExternals_append (xs ys : List Event) (held : List String) :
    heldAtExternals (xs ++ ys) held =
      heldAtExternals xs held ++ heldAtExternals ys (heldAfter xs held) := by
  induction xs generalizing held with
  | nil => rfl
  | cons x xs ih => cases x <;> simp [heldAtExternals, heldAfter, ih]

/-- A trace that takes and releases no lock can only report locks it
started with. -/
theorem heldAtExternals_subset (t : List Event)
    (ht : ∀ e ∈ t, (∀ l m, e ≠ .acquire l m) ∧ (∀ l, e ≠ .release l)) :
    ∀ held l, l ∈ heldAtExternals t held → l ∈ held := by
  induction t with
  | nil => simp [heldAtExternals]
  | cons e rest ih =>
    intro held l hl
    have hrest : ∀ e ∈ rest, (∀ l m, e ≠ .acquire l m) ∧ (∀ l, e ≠ .release l) :=
      fun e he => ht e (List.mem_cons_of_mem _ he)
    cases e with
    | acquire l2 m => exact absurd rfl ((ht _ (List.mem_cons_self _ _)).1 l2 m)
    | release l2 => exact absurd rfl ((ht _ (List.mem_cons_self _ _)).2 l2)
    | externalCall w =>
      simp only [heldAtExternals, List.mem_append] at hl
      rcases hl with hl | hl
      · exact hl
      · exact ih hrest held l hl
    | spawn w =>
      exact ih hrest held l (by simpa [heldAtExternals] using hl)

theorem heldAtExternals_map_spawn (f : α → String) (xs : List α) (held : List String) :
    heldAtExternals (xs.map fun x => Event.spawn (f x)) held = [] := by
  induction xs with
  | nil => rfl
  | cons x xs ih => simp [heldAtExternals, ih]

/-- Counterexample to C9 as stated.  `executeToolCalls` holds the tool
registry's read lock across the execution of every registered tool in
the batch (the `defer`red unlock runs only after the loop), so a lock
is held across an external call: dispatching the registered tool `a`
reports `toolsLock` held at the moment of the handler's execution. -/
theorem C9_counterexample :
    locksHeldAcrossExternal (executeToolCallsTrace toolsEx [⟨"a", ""⟩]) = ["toolsLock"] ∧
    locksHeldAcrossExternal (executeToolCallsTrace toolsEx [⟨"a", ""⟩]) ≠ [] := by
  constructor
  · decide
  · decide

/-- C9 (amended).  The cited lock discipline holds everywhere except in
the dispatcher: `Monitor.sendAlert` makes no external call under its
callback lock, `Monitor.sendAlertIfNew` makes none under the monitor
state lock (delivery only spawns fire-and-forget callback tasks), and
the only lock `Agent.executeToolCalls` ever holds across an external
call is the tool-registry read lock, which it does hold across every
handler execution of the batch. -/
theorem C9_locks_not_held_across_external_calls :
    (∀ n, locksHeldAcrossExternal (sendAlertTrace n) = []) ∧
    (∀ d n, locksHeldAcrossExternal (sendAlertIfNewTrace d n) = []) ∧
    (∀ (tools : ToolRegistry) (calls : List ToolCall) (l : String),
      l ∈ locksHeldAcrossExternal (executeToolCallsTrace tools calls) →
      l = "toolsLock") := by
  refine ⟨?_, ?_, ?_⟩
  · intro n
    simp [locksHeldAcrossExternal, sendAlertTrace, heldAtExternals,
      heldAtExternals_map_spawn]
  · intro d n
    cases d <;>
      simp [locksHeldAcrossExternal, sendAlertIfNewTrace, sendAlertTrace,
        heldAtExternals, heldAtExternals_append, heldAfter,
        heldAtExternals_map_spawn]
  · intro tools calls l hl
    unfold locksHeldAcrossExternal executeToolCallsTrace at hl
    rw [List.append_assoc, heldAtExternals_append] at hl
    simp only [heldAtExternals, heldAfter, List.nil_append] at hl
    rw [heldAtExternals_append] at hl
    have hmid : ∀ e ∈ (calls.flatMap fun call =>
        match tools.lookup call.name with
        | none => ([] : List Event)
        | some _ => [.externalCall ("Tool.Execute " ++ call.name)]),
        (∀ l2 m, e ≠ .acquire l2 m) ∧ (∀ l2, e ≠ .release l2) := by
      intro e he
      rw [List.mem_flatMap] at he
      obtain ⟨call, _, he⟩ := he
      cases hlk : tools.lookup call.name with
      | none => rw [hlk] at he; simp at he
      | some t =>
        rw [hlk] at he
        simp only [List.mem_singleton] at he
        subst he
        exact ⟨fun _ _ h => Event.noConfusion h, fun _ h => Event.noConfusion h⟩
    simp only [List.mem_append] at hl
    rcases hl with hl | hl
    · have := heldAtExternals_subset _ hmid ["toolsLock"] l hl
      simpa using this
    · simp [heldAtExternals] at hl

/-- Instance of the amended C9 theorem: no lock is held across an
external call in a two-callback alert delivery, and the only lock held
across the dispatcher's handler executions is the registry lock. -/
theorem C9_locks_not_held_across_external_calls_witness :
    locksHeldAcrossExternal (sendAlertTrace 2) = [] ∧ "toolsLock" = "toolsLock" :=
  ⟨C9_locks_not_held_across_external_calls.1 2,
   C9_locks_not_held_across_external_calls.2.2 toolsEx [⟨"a", ""⟩] "toolsLock"
     (by decide)⟩

end Nofx

